import Mathlib

set_option maxRecDepth 100000

/-!
# A shallow embedding of the CHIP-8 interpreter in `src/main.rs`

Modelling conventions, fixed once for the whole file:

* Machine integers are `Nat` with explicit wrap where the width matters:
  u8 operations reduce modulo 256, u16 modulo 65536, usize modulo 2^64.
  Overflowing arithmetic follows the release-profile semantics of Rust
  (overflow wraps, shift amounts are masked to the bit width of the left
  operand); these are the semantics of the optimized binary the emulator
  is run as.
* Rust slice/array indexing is bounds checked in every build profile and an
  out-of-range index aborts the program.  Reads are modelled with `l.get? (i)`
  and writes with `idxSet`; an execution that aborts yields `none`.
* `rand::thread_rng().gen()` in the `RND` instruction is modelled by passing
  the drawn byte `r` to the step function as an explicit argument.
* Each `println` that reports an unknown opcode is modelled by appending the
  two opcode bytes to the report list returned next to the new state; known
  instructions return an empty report list.
* The fields `V` and `key_state` have Rust type `[u8; 17]` (seventeen
  entries each) and `mem`/`screen_buffer` are `Vec`s; here all four are
  `List Nat`, with their lengths and byte ranges supplied as hypotheses
  where a theorem needs them.
-/

namespace Chip8

/-- Screen width in pixels (`const W: usize = 64`). -/
def W : Nat := 64

/-- Screen height in pixels (`const H: usize = 32`). -/
def H : Nat := 32

/-- Base address of the font table (`const FONT_BASE: usize = 0`). -/
def FONT_BASE : Nat := 0

/-- The interpreter state, mirroring `struct CpuState` field by field. -/
structure CpuState where
  pc : Nat
  sp : Nat
  I : Nat
  V : List Nat
  delay : Nat
  sound : Nat
  mem : List Nat
  screen_buffer : List Nat
  key_state : List Nat
deriving DecidableEq

/-- Bounds-checked store, mirroring `v[i] = x` on a Rust slice or array:
an out-of-range index (one for which `l.get? i` is `none`, i.e.
`l.length <= i`) aborts the program (`none`). -/
def idxSet (l : List Nat) (i v : Nat) : Option (List Nat) :=
  match l.get? i with
  | some _ => some (l.set i v)
  | none => none

/-- Wrapping u8 arithmetic (release profile). -/
def wrap8 (n : Nat) : Nat := n % 256

/-- Wrapping u16 arithmetic (release profile). -/
def wrap16 (n : Nat) : Nat := n % 65536

/-- Wrapping u8 subtraction `a - b` for u8 values `a b < 256`
(release profile: `a.wrapping_sub b`). -/
def sub8 (a b : Nat) : Nat := (a + 256 - b) % 256

/-- Wrapping usize subtraction (release profile). -/
def sub64 (a b : Nat) : Nat :=
  (a + 18446744073709551616 - b) % 18446744073709551616

/-- The result of one interpreter step: `none` when the Rust program aborts,
otherwise the new state together with the list of reported unknown opcodes
(the pairs of opcode bytes passed to `println`). -/
abbrev StepResult := Option (CpuState × List (Nat × Nat))

/-- Model of `fn update_key_down` (src lines 99-105): keycodes above 0xF are ignored,
otherwise the slot indexed by the keycode is set to 1. -/
def update_key_down (s : CpuState) (keycode : Nat) : Option CpuState :=
  if keycode > 0xF then
    some s
  else
    match idxSet s.key_state keycode 1 with
    | some ks => some { s with key_state := ks }
    | none => none

/-- Family 0x0 (src lines 124-156): `CLS` (00E0), `RET` (00EE), otherwise the
unknown opcode is reported and the program counter advances by 2. -/
def exec0 (s : CpuState) (b0 b1 : Nat) : StepResult :=
  if b1 = 0xE0 then
    some ({ s with screen_buffer := s.screen_buffer.map (fun _ => 0),
                   pc := s.pc + 2 }, [])
  else if b1 = 0xEE then
    match s.mem.get? (s.sp), s.mem.get? (s.sp + 1) with
    | some hi, some lo =>
        some ({ s with sp := s.sp + 2, pc := (hi <<< 8) ||| lo }, [])
    | _, _ => none
  else
    some ({ s with pc := s.pc + 2 }, [(b0, b1)])

/-- Family 0x1 (src lines 157-162): `JP addr`. -/
def exec1 (s : CpuState) (b0 b1 : Nat) : StepResult :=
  some ({ s with pc := ((b0 &&& 0x0f) <<< 8) ||| b1 }, [])

/-- Family 0x2 (src lines 163-174): `CALL addr`.  The stack pointer is
decreased by 2, the two bytes of `pc + 2` are pushed, and the target is then
recomputed from memory *after* the pushes, exactly as the source does. -/
def exec2 (s : CpuState) (_b0 _b1 : Nat) : StepResult :=
  let sp2 := sub64 s.sp 2
  match idxSet s.mem sp2 (((s.pc + 2) &&& 0xff00) >>> 8) with
  | none => none
  | some m1 =>
    match idxSet m1 (sp2 + 1) ((s.pc + 2) &&& 0x00ff) with
    | none => none
    | some m2 =>
      match m2.get? (s.pc), m2.get? (s.pc + 1) with
      | some c0, some c1 =>
          some ({ s with sp := sp2, mem := m2,
                         pc := ((c0 &&& 0x0f) <<< 8) ||| c1 }, [])
      | _, _ => none

/-- Family 0x3 (src lines 175-184): `SE Vx, byte`. -/
def exec3 (s : CpuState) (b0 b1 : Nat) : StepResult :=
  match s.V.get? (b0 &&& 0x0f) with
  | some v => some ({ s with pc := s.pc + (if v = b1 then 2 else 0) + 2 }, [])
  | none => none

/-- Family 0x4 (src lines 185-195): `SNE Vx, byte`. -/
def exec4 (s : CpuState) (b0 b1 : Nat) : StepResult :=
  match s.V.get? (b0 &&& 0x0f) with
  | some v => some ({ s with pc := s.pc + (if v = b1 then 0 else 2) + 2 }, [])
  | none => none

/-- Family 0x5 (src lines 197-208): `SE Vx, Vy`. -/
def exec5 (s : CpuState) (b0 b1 : Nat) : StepResult :=
  match s.V.get? (b0 &&& 0x0f), s.V.get? ((b1 &&& 0xf0) >>> 4) with
  | some vx, some vy =>
      some ({ s with pc := s.pc + (if vx = vy then 2 else 0) + 2 }, [])
  | _, _ => none

/-- Family 0x6 (src lines 210-218): `LD Vx, byte`. -/
def exec6 (s : CpuState) (b0 b1 : Nat) : StepResult :=
  match idxSet s.V (b0 &&& 0x0f) b1 with
  | some V2 => some ({ s with V := V2, pc := s.pc + 2 }, [])
  | none => none

/-- Family 0x7 (src lines 220-228): `ADD Vx, byte` (wrapping in release). -/
def exec7 (s : CpuState) (b0 b1 : Nat) : StepResult :=
  match s.V.get? (b0 &&& 0x0f) with
  | some v =>
    match idxSet s.V (b0 &&& 0x0f) (wrap8 (v + b1)) with
    | some V2 => some ({ s with V := V2, pc := s.pc + 2 }, [])
    | none => none
  | none => none

/-- Family 0x8 (src lines 230-365), the ALU instructions, dispatched on the
low nibble of the second byte.  Where the source writes the flag register
and then performs a compound assignment (`-=`, `/=`, `*=`), the operands are
re-read *after* the flag write, exactly as the source does. -/
def exec8 (s : CpuState) (b0 b1 : Nat) : StepResult :=
  let regx := b0 &&& 0x0f
  let regy := (b1 &&& 0xf0) >>> 4
  let nib := b1 &&& 0x0f
  if nib = 0x0 then
    match s.V.get? (regy) with
    | some vy =>
      match idxSet s.V regx vy with
      | some V2 => some ({ s with V := V2, pc := s.pc + 2 }, [])
      | none => none
    | none => none
  else if nib = 0x1 then
    match s.V.get? (regx), s.V.get? (regy) with
    | some vx, some vy =>
      match idxSet s.V regx (vx ||| vy) with
      | some V2 => some ({ s with V := V2, pc := s.pc + 2 }, [])
      | none => none
    | _, _ => none
  else if nib = 0x2 then
    match s.V.get? (regx), s.V.get? (regy) with
    | some vx, some vy =>
      match idxSet s.V regx (vx &&& vy) with
      | some V2 => some ({ s with V := V2, pc := s.pc + 2 }, [])
      | none => none
    | _, _ => none
  else if nib = 0x3 then
    match s.V.get? (regx), s.V.get? (regy) with
    | some vx, some vy =>
      match idxSet s.V regx (vx ^^^ vy) with
      | some V2 => some ({ s with V := V2, pc := s.pc + 2 }, [])
      | none => none
    | _, _ => none
  else if nib = 0x4 then
    -- ADD Vx, Vy: the u16 sum is computed before the flag write and reused.
    match s.V.get? (regx), s.V.get? (regy) with
    | some vx, some vy =>
      let res := vx + vy
      match idxSet s.V 0xF (if res &&& 0xff00 = 0 then 0 else 1) with
      | some V1 =>
        match idxSet V1 regx (res &&& 0x00ff) with
        | some V2 => some ({ s with V := V2, pc := s.pc + 2 }, [])
        | none => none
      | none => none
    | _, _ => none
  else if nib = 0x5 then
    -- SUB Vx, Vy: flag from the pre-write values, then `V[regx] -= V[regy]`
    -- re-reads both registers after the flag write.
    match s.V.get? (regx), s.V.get? (regy) with
    | some vx, some vy =>
      match idxSet s.V 0xF (if vy < vx then 1 else 0) with
      | some V1 =>
        match V1.get? (regx), V1.get? (regy) with
        | some vx2, some vy2 =>
          match idxSet V1 regx (sub8 vx2 vy2) with
          | some V2 => some ({ s with V := V2, pc := s.pc + 2 }, [])
          | none => none
        | _, _ => none
      | none => none
    | _, _ => none
  else if nib = 0x6 then
    -- SHR: flag := Vx & 1, then `V[regx] /= 2` re-reads the register.
    match s.V.get? (regx) with
    | some vx =>
      match idxSet s.V 0xF (vx &&& 1) with
      | some V1 =>
        match V1.get? (regx) with
        | some vx2 =>
          match idxSet V1 regx (vx2 / 2) with
          | some V2 => some ({ s with V := V2, pc := s.pc + 2 }, [])
          | none => none
        | none => none
      | none => none
    | none => none
  else if nib = 0x7 then
    -- SUBN Vx, Vy: flag from pre-write values, then `V[regx] = V[regy] - V[regx]`
    -- re-reads both registers after the flag write.
    match s.V.get? (regx), s.V.get? (regy) with
    | some vx, some vy =>
      match idxSet s.V 0xF (if vx < vy then 1 else 0) with
      | some V1 =>
        match V1.get? (regx), V1.get? (regy) with
        | some vx2, some vy2 =>
          match idxSet V1 regx (sub8 vy2 vx2) with
          | some V2 => some ({ s with V := V2, pc := s.pc + 2 }, [])
          | none => none
        | _, _ => none
      | none => none
    | _, _ => none
  else if nib = 0xE then
    -- SHL: flag := Vx & 0x80 (the source stores the masked bit, not 0/1),
    -- then `V[regx] *= 2` re-reads the register (wrapping in release).
    match s.V.get? (regx) with
    | some vx =>
      match idxSet s.V 0xF (vx &&& (1 <<< 7)) with
      | some V1 =>
        match V1.get? (regx) with
        | some vx2 =>
          match idxSet V1 regx (wrap8 (vx2 * 2)) with
          | some V2 => some ({ s with V := V2, pc := s.pc + 2 }, [])
          | none => none
        | none => none
      | none => none
    | none => none
  else
    some ({ s with pc := s.pc + 2 }, [(b0, b1)])

/-- Family 0x9 (src lines 367-376): `SNE Vx, Vy`. -/
def exec9 (s : CpuState) (b0 b1 : Nat) : StepResult :=
  match s.V.get? (b0 &&& 0x0f), s.V.get? ((b1 &&& 0xf0) >>> 4) with
  | some vx, some vy =>
      some ({ s with pc := s.pc + (if vx = vy then 0 else 2) + 2 }, [])
  | _, _ => none

/-- Family 0xA (src lines 378-384): `LD I, addr`. -/
def execA (s : CpuState) (b0 b1 : Nat) : StepResult :=
  some ({ s with I := ((b0 &&& 0x0f) <<< 8) ||| b1, pc := s.pc + 2 }, [])

/-- Family 0xB (src lines 386-393): the source sets
`pc := addr + V0` (as u16) and then executes `self.pc += 2`. -/
def execB (s : CpuState) (b0 b1 : Nat) : StepResult :=
  match s.V.get? (0) with
  | some v0 =>
      some ({ s with pc := wrap16 ((((b0 &&& 0x0f) <<< 8) ||| b1) + v0) + 2 }, [])
  | none => none

/-- Family 0xC (src lines 395-408): `RND Vx, byte` with the random byte `r`. -/
def execC (s : CpuState) (r b0 b1 : Nat) : StepResult :=
  match idxSet s.V (b0 &&& 0x0f) (r &&& b1) with
  | some V2 => some ({ s with V := V2, pc := s.pc + 2 }, [])
  | none => none

/-- One sprite row of `DRW` (src lines 418-433).  The source iterates
`j in (-8)..0`, tests `mem_byte & (1u8 << j)` and toggles column
`((x - 1) - j as usize) % W`.  In release semantics the u8 shift amount is
masked to `j & 7` and the usize subtraction wraps modulo 2^64, so with
`j = jr - 8` (for `jr = 0, ..., 7`, in the same increasing order) the bit
tested is bit `jr` and the column is `(x - 1 - j) % W = (x + 7 - jr) % W`
(the intermediate value `x + 7 - jr` stays below 2^64 because `x` is the
value of a u8 register).  The pixel XOR `^= 0xffffff` is a bounds-checked
read-modify-write. -/
def drwRow (screen : List Nat) (rowByte x y i : Nat) : Option (List Nat) :=
  (List.range 8).foldlM
    (fun sc jr =>
      if rowByte &&& (1 <<< jr) ≠ 0 then
        let idx := ((i + y) % H) * W + (x + 7 - jr) % W
        match sc.get? (idx) with
        | some px => idxSet sc idx (px ^^^ 0xffffff)
        | none => none
      else
        pure sc)
    screen

/-- The row loop of `DRW` (src lines 418-433): row `i` uses the sprite byte
`mem[i + I]` (a bounds-checked read). -/
def drwRows (mem screen : List Nat) (Ival x y n : Nat) : Option (List Nat) :=
  (List.range n).foldlM
    (fun sc i =>
      match mem.get? (i + Ival) with
      | some rowByte => drwRow sc rowByte x y i
      | none => none)
    screen

/-- Family 0xD (src lines 410-436): `DRW Vx, Vy, n`.  Note that the source
never touches the flag register here: the collision update is commented out
(src lines 425-428). -/
def execD (s : CpuState) (b0 b1 : Nat) : StepResult :=
  let regx := b0 &&& 0x0f
  let regy := (b1 &&& 0xf0) >>> 4
  let n := b1 &&& 0x0f
  match s.V.get? (regx), s.V.get? (regy) with
  | some x, some y =>
    match drwRows s.mem s.screen_buffer s.I x y n with
    | some sc => some ({ s with screen_buffer := sc, pc := s.pc + 2 }, [])
    | none => none
  | _, _ => none

/-- Family 0xE (src lines 438-464): `SKP Vx` (0x9E) and `SKNP Vx` (0xA1).
The keypad slot index is the raw register value `V[reg]`, used unmasked as
`self.key_state[self.V[reg] as usize]`. -/
def execE (s : CpuState) (b0 b1 : Nat) : StepResult :=
  let reg := b0 &&& 0x0f
  if b1 = 0x9E then
    match s.V.get? (reg) with
    | some v =>
      match s.key_state.get? (v) with
      | some k => some ({ s with pc := s.pc + (if k = 1 then 2 else 0) + 2 }, [])
      | none => none
    | none => none
  else if b1 = 0xA1 then
    match s.V.get? (reg) with
    | some v =>
      match s.key_state.get? (v) with
      | some k => some ({ s with pc := s.pc + (if k = 0 then 2 else 0) + 2 }, [])
      | none => none
    | none => none
  else
    some ({ s with pc := s.pc + 2 }, [(b0, b1)])

/-- The register dump of `LD [I], Vx` (src lines 510-520): registers
`0..=x` are stored to `mem[I + i]`, each store bounds checked. -/
def storeRegs (V mem : List Nat) (Ival x : Nat) : Option (List Nat) :=
  (List.range (x + 1)).foldlM
    (fun m i =>
      match V.get? (i) with
      | some vi => idxSet m (Ival + i) vi
      | none => none)
    mem

/-- The register load of `LD Vx, [I]` (src lines 522-535): registers
`0..=x` are loaded from `mem[I + i]`, each read bounds checked. -/
def loadRegs (V mem : List Nat) (Ival x : Nat) : Option (List Nat) :=
  (List.range (x + 1)).foldlM
    (fun regs i =>
      match mem.get? (Ival + i) with
      | some mi => idxSet regs i mi
      | none => none)
    V

/-- Family 0xF (src lines 466-565), dispatched on the full second byte, in
the arm order of the source.  Note that 0x15/0x18 set the timer to the *low
nibble of the first opcode byte* (`self.mem[self.pc] & 0x0f`), not to the
value of `Vx`. -/
def execF (s : CpuState) (b0 b1 : Nat) : StepResult :=
  if b1 = 0x7 then
    match idxSet s.V (b0 &&& 0x0f) s.delay with
    | some V2 => some ({ s with V := V2, pc := s.pc + 2 }, [])
    | none => none
  else if b1 = 0x15 then
    some ({ s with delay := b0 &&& 0x0f, pc := s.pc + 2 }, [])
  else if b1 = 0x18 then
    some ({ s with sound := b0 &&& 0x0f, pc := s.pc + 2 }, [])
  else if b1 = 0x29 then
    -- `self.I = FONT_BASE as u16 + (self.V[reg] * 5) as u16`: the u8
    -- multiplication wraps in release, the u16 addition cannot overflow.
    match s.V.get? (b0 &&& 0x0f) with
    | some v =>
        some ({ s with I := wrap16 (FONT_BASE + wrap8 (v * 5)), pc := s.pc + 2 }, [])
    | none => none
  else if b1 = 0x33 then
    match s.V.get? (b0 &&& 0x0f) with
    | some v =>
      match idxSet s.mem s.I (v / 10 / 10 % 10) with
      | some m1 =>
        match idxSet m1 (s.I + 1) (v / 10 % 10) with
        | some m2 =>
          match idxSet m2 (s.I + 2) (v % 10) with
          | some m3 => some ({ s with mem := m3, pc := s.pc + 2 }, [])
          | none => none
        | none => none
      | none => none
    | none => none
  else if b1 = 0x55 then
    match storeRegs s.V s.mem s.I (b0 &&& 0x0f) with
    | some m2 =>
        some ({ s with mem := m2, I := wrap16 (s.I + ((b0 &&& 0x0f) + 1)),
                       pc := s.pc + 2 }, [])
    | none => none
  else if b1 = 0x65 then
    match loadRegs s.V s.mem s.I (b0 &&& 0x0f) with
    | some V2 =>
        some ({ s with V := V2, I := wrap16 (s.I + ((b0 &&& 0x0f) + 1)),
                       pc := s.pc + 2 }, [])
    | none => none
  else if b1 = 0x0A then
    -- `LD Vx, K` (src lines 537-547): scan the keypad for the first pressed
    -- slot; when none is pressed nothing changes (the step blocks).
    match s.key_state.findIdx? (fun k => k != 0) with
    | some index =>
      match idxSet s.V (b0 &&& 0x0f) index with
      | some V2 => some ({ s with pc := s.pc + 2, V := V2 }, [])
      | none => none
    | none => some (s, [])
  else if b1 = 0x1E then
    match s.V.get? (b0 &&& 0x0f) with
    | some v => some ({ s with I := wrap16 (s.I + v), pc := s.pc + 2 }, [])
    | none => none
  else
    some ({ s with pc := s.pc + 2 }, [(b0, b1)])

/-- Model of `fn emulate_chip8` (src lines 113-569): fetch the opcode byte at `pc`,
dispatch on its high nibble.  The second byte is read by every family arm,
so it is fetched here once.  The final catch-all arm of the source calls
`not_impl`, which aborts; it is unreachable because the high nibble is
always below 16. -/
def emulate_chip8 (r : Nat) (s : CpuState) : StepResult :=
  match s.mem.get? (s.pc) with
  | none => none
  | some b0 =>
    match s.mem.get? (s.pc + 1) with
    | none => none
    | some b1 =>
      let hn := (b0 &&& 0xf0) >>> 4
      if hn = 0x0 then exec0 s b0 b1
      else if hn = 0x1 then exec1 s b0 b1
      else if hn = 0x2 then exec2 s b0 b1
      else if hn = 0x3 then exec3 s b0 b1
      else if hn = 0x4 then exec4 s b0 b1
      else if hn = 0x5 then exec5 s b0 b1
      else if hn = 0x6 then exec6 s b0 b1
      else if hn = 0x7 then exec7 s b0 b1
      else if hn = 0x8 then exec8 s b0 b1
      else if hn = 0x9 then exec9 s b0 b1
      else if hn = 0xA then execA s b0 b1
      else if hn = 0xB then execB s b0 b1
      else if hn = 0xC then execC s r b0 b1
      else if hn = 0xD then execD s b0 b1
      else if hn = 0xE then execE s b0 b1
      else if hn = 0xF then execF s b0 b1
      else none

/-! ## Derived definitions used by the claim statements -/

/-- The condition under which a fetched opcode falls into one of the four
two-level dispatch families (high nibble 0x0, 0x8, 0xE or 0xF) but its low
byte (or, for family 0x8, low nibble) matches none of the recognized
instructions, i.e. exactly the fall-through arms of the inner source
`match` expressions (src lines 147-155, 355-363, 456-463, 556-564). -/
def unknownLowByte (b0 b1 : Nat) : Prop :=
  ((b0 &&& 0xf0) >>> 4 = 0x0 ∧ b1 ≠ 0xE0 ∧ b1 ≠ 0xEE) ∨
  ((b0 &&& 0xf0) >>> 4 = 0x8 ∧ b1 &&& 0x0f ≠ 0x0 ∧ b1 &&& 0x0f ≠ 0x1 ∧
    b1 &&& 0x0f ≠ 0x2 ∧ b1 &&& 0x0f ≠ 0x3 ∧ b1 &&& 0x0f ≠ 0x4 ∧
    b1 &&& 0x0f ≠ 0x5 ∧ b1 &&& 0x0f ≠ 0x6 ∧ b1 &&& 0x0f ≠ 0x7 ∧
    b1 &&& 0x0f ≠ 0xE) ∨
  ((b0 &&& 0xf0) >>> 4 = 0xE ∧ b1 ≠ 0x9E ∧ b1 ≠ 0xA1) ∨
  ((b0 &&& 0xf0) >>> 4 = 0xF ∧ b1 ≠ 0x7 ∧ b1 ≠ 0x15 ∧ b1 ≠ 0x18 ∧
    b1 ≠ 0x29 ∧ b1 ≠ 0x33 ∧ b1 ≠ 0x55 ∧ b1 ≠ 0x65 ∧ b1 ≠ 0x0A ∧ b1 ≠ 0x1E)

instance (b0 b1 : Nat) : Decidable (unknownLowByte b0 b1) := by
  unfold unknownLowByte; infer_instance

/-- Toggle (XOR with 0xffffff) the pixel at a framebuffer index. -/
def togglePixel (sc : List Nat) (idx : Nat) : List Nat :=
  sc.set idx (((sc.get? idx).getD 0) ^^^ 0xffffff)

/-- Total description of the `DRW` framebuffer update: for each sprite row
`i < n` and each bit `jr < 8` that is set in the sprite byte `mem[I + i]`,
the pixel at row `(i + y) % H`, column `(x + 7 - jr) % W` is toggled — both
coordinates wrap toroidally, and every touched index
`((i + y) % H) * W + (x + 7 - jr) % W` is below `W * H`.  (`jr` is the bit
index inside the byte, so `jr = 7` is the most significant bit, drawn at
column `x`; the bits are drawn most-significant-bit first.) -/
def drwBlit (mem : List Nat) (Ival x y n : Nat) (screen : List Nat) : List Nat :=
  (List.range n).foldl
    (fun sc i =>
      (List.range 8).foldl
        (fun sc2 jr =>
          if ((mem.get? (i + Ival)).getD 0) &&& (1 <<< jr) ≠ 0 then
            togglePixel sc2 (((i + y) % H) * W + (x + 7 - jr) % W)
          else sc2)
        sc)
    screen

/-! ## Concrete machine states used by witnesses and counterexamples -/

/-- Seventeen zeroed u8 registers, the `[0; 17]` initial value. -/
def zeros17 : List Nat := List.replicate 17 0

/-- An all-off 64 by 32 framebuffer. -/
def blankScreen : List Nat := List.replicate (W * H) 0

/-- A state about to execute `DRW V0, V0, 1` (opcode D001) with the one-byte
sprite 0x80 at `I = 2` and the target pixel (0,0) currently on. -/
def sDrawOn : CpuState :=
  ⟨0, 0, 2, zeros17, 0, 0, [0xD0, 0x01, 0x80],
    0xffffff :: List.replicate (W * H - 1) 0, zeros17⟩

/-- The same draw, but onto an all-off framebuffer and with the flag register
holding 1 beforehand. -/
def sDrawOff : CpuState :=
  ⟨0, 0, 2, zeros17.set 0xF 1, 0, 0, [0xD0, 0x01, 0x80], blankScreen, zeros17⟩

/-- A state about to execute `SUB VF, V0` (opcode 8F05) with VF = 5, V0 = 0. -/
def sSubAliasX : CpuState :=
  ⟨0, 0, 0, zeros17.set 0xF 5, 0, 0, [0x8F, 0x05], [], zeros17⟩

/-- A state about to execute `SUB V0, VF` (opcode 80F5) with V0 = 10, VF = 3. -/
def sSubAliasY : CpuState :=
  ⟨0, 0, 0, (zeros17.set 0 10).set 0xF 3, 0, 0, [0x80, 0xF5], [], zeros17⟩

/-- A state about to execute `SUB V0, V1` (opcode 8015) with V0 = 1, V1 = 2,
the example from the claim. -/
def sSub : CpuState :=
  ⟨0, 0, 0, (zeros17.set 0 1).set 1 2, 0, 0, [0x80, 0x15], [], zeros17⟩

/-- A state about to execute the unrecognized opcode 0xFFFF. -/
def sUnknown : CpuState :=
  ⟨0, 0, 0, zeros17, 0, 0, [0xFF, 0xFF], [], zeros17⟩

/-- A state about to execute `DRW V0, V1, 5` (opcode D015) at x = 60, y = 30
with an all-ones 8 by 5 sprite at `I = 2`: the toroidal wrap example of the spec. -/
def sDrw : CpuState :=
  ⟨0, 0, 2, (zeros17.set 0 60).set 1 30, 0, 0,
    [0xD0, 0x15, 0xFF, 0xFF, 0xFF, 0xFF, 0xFF], blankScreen, zeros17⟩

/-- A state about to execute `JP V0, 0x300` (opcode B300) with V0 = 5. -/
def sJpV0 : CpuState :=
  ⟨0, 0, 0, zeros17.set 0 5, 0, 0, [0xB3, 0x00], [], zeros17⟩

/-- A state about to execute `LD DT, V5` (opcode F515) with V5 = 99 and
delay timer 7. -/
def sLdDt : CpuState :=
  ⟨0, 0, 0, zeros17.set 5 99, 7, 7, [0xF5, 0x15], [], zeros17⟩

/-- A state about to execute `LD ST, V5` (opcode F518) with V5 = 99 and
sound timer 7. -/
def sLdSt : CpuState :=
  ⟨0, 0, 0, zeros17.set 5 99, 7, 7, [0xF5, 0x18], [], zeros17⟩

/-- A state about to execute `CALL 0x004` (opcode 2004) with `sp = 16` and a
`RET` (00EE) at address 4, inside a 16-byte memory. -/
def sCall : CpuState :=
  ⟨0, 16, 0, zeros17, 0, 0,
    [0x20, 0x04, 0, 0, 0x00, 0xEE] ++ List.replicate 10 0, [], zeros17⟩

/-- A state about to execute `LD [I], V3` (opcode F355) directly followed by
`LD V3, [I]` (opcode F365), with V0..V3 = 1,2,3,4, `I = 8` and the memory
cells from address 4 on holding the value 9. -/
def sStoreLoad : CpuState :=
  ⟨0, 0, 8, (((zeros17.set 0 1).set 1 2).set 2 3).set 3 4, 0, 0,
    [0xF3, 0x55, 0xF3, 0x65] ++ List.replicate 12 9, [], zeros17⟩

/-- A state about to execute `SKP V0` (opcode E09E) with V0 = 0x11 = 17. -/
def sSkpHigh : CpuState :=
  ⟨0, 0, 0, zeros17.set 0 0x11, 0, 0, [0xE0, 0x9E], [], zeros17⟩

/-- A state about to execute `SKP V0` (opcode E09E) with V0 = 0x10 = 16 and
the seventeenth keypad slot (index 16) marked pressed. -/
def sSkpSlot16 : CpuState :=
  ⟨0, 0, 0, zeros17.set 0 0x10, 0, 0, [0xE0, 0x9E], [], zeros17.set 16 1⟩

/-- A blank state used to exercise `update_key_down`. -/
def sKeys : CpuState := ⟨0, 0, 0, zeros17, 0, 0, [], [], zeros17⟩

/-! ## Theorems -/

/-! ### Helper lemmas about list access -/

theorem get?_of_lt {l : List Nat} {i : Nat} (h : i < l.length) :
    l.get? i = some l[i] := by
  rw [List.get?_eq_getElem?, List.getElem?_eq_getElem h]

theorem idxSet_of_lt {l : List Nat} {i : Nat} (v : Nat) (h : i < l.length) :
    idxSet l i v = some (l.set i v) := by
  unfold idxSet
  rw [get?_of_lt h]

theorem setGet_same {l : List Nat} {i : Nat} {v : Nat} (h : i < l.length) :
    (l.set i v).get? i = some v := by
  rw [List.get?_eq_getElem?]
  exact List.getElem?_set_self h

theorem setGet_other {l : List Nat} {i j : Nat} {v : Nat} (h : i ≠ j) :
    (l.set i v).get? j = l.get? j := by
  rw [List.get?_eq_getElem?, List.get?_eq_getElem?]
  exact List.getElem?_set_ne h

/-- C10: `update_key_down` ignores every keycode above 0xF and returns the
state unchanged; for a keycode in 0x0..0xF it sets exactly that one keypad
slot to 1 (pressed), leaves every other keypad slot unchanged, and changes
no other machine state (the result differs from `s` only in `key_state`).
The length hypothesis is the Rust array type `[u8; 17]` of `key_state`. -/
theorem update_key_down_spec (s : CpuState) (k : Nat)
    (hlen : s.key_state.length = 17) :
    (0xF < k → update_key_down s k = some s) ∧
    (k ≤ 0xF →
      update_key_down s k = some { s with key_state := s.key_state.set k 1 } ∧
      (s.key_state.set k 1).get? k = some 1 ∧
      ∀ j, j ≠ k → (s.key_state.set k 1).get? j = s.key_state.get? j) := by
  constructor
  · intro hk
    unfold update_key_down
    rw [if_pos hk]
  · intro hk
    have hk17 : k < s.key_state.length := by omega
    refine ⟨?_, setGet_same hk17, fun j hj => setGet_other (Ne.symm hj)⟩
    unfold update_key_down
    rw [if_neg (by omega), idxSet_of_lt _ hk17]

/-- Witness for `update_key_down_spec`: the blank state `sKeys` and
keycode 3. -/
theorem update_key_down_spec_witness :
    sKeys.key_state.length = 17 ∧
    ((0xF < 3 → update_key_down sKeys 3 = some sKeys) ∧
     (3 ≤ 0xF →
       update_key_down sKeys 3
         = some { sKeys with key_state := sKeys.key_state.set 3 1 } ∧
       (sKeys.key_state.set 3 1).get? 3 = some 1 ∧
       ∀ j, j ≠ 3 → (sKeys.key_state.set 3 1).get? j = sKeys.key_state.get? j)) :=
  ⟨rfl, update_key_down_spec sKeys 3 rfl⟩

/-- C3: within the two-level dispatch families 0x0, 0x8, 0xE and 0xF, an
unrecognized low byte (or, for family 0x8, low nibble) does not abort or
halt execution: the step succeeds, reports the two opcode bytes, advances
the program counter by exactly 2 and leaves every other component of the
machine state unchanged. -/
theorem unknown_opcode_recovery (r : Nat) (s : CpuState) (b0 b1 : Nat)
    (h0 : s.mem.get? s.pc = some b0) (h1 : s.mem.get? (s.pc + 1) = some b1)
    (hu : unknownLowByte b0 b1) :
    emulate_chip8 r s = some ({ s with pc := s.pc + 2 }, [(b0, b1)]) := by
  unfold emulate_chip8
  rw [h0, h1]
  rcases hu with ⟨hn, hA, hB⟩ |
    ⟨hn, n0, n1, n2, n3, n4, n5, n6, n7, n8⟩ | ⟨hn, hA, hB⟩ |
    ⟨hn, hA, hB, hC, hD, hE, hF, hG, hH, hI⟩
  · simp [hn, exec0, hA, hB]
  · simp [hn, exec8, n0, n1, n2, n3, n4, n5, n6, n7, n8]
  · simp [hn, execE, hA, hB]
  · simp [hn, execF, hA, hB, hC, hD, hE, hF, hG, hH, hI]

/-- Witness for `unknown_opcode_recovery`: the opcode 0xFFFF (family 0xF,
unrecognized low byte 0xFF) at program counter 0 of `sUnknown`. -/
theorem unknown_opcode_recovery_witness :
    sUnknown.mem.get? sUnknown.pc = some 0xFF ∧
    sUnknown.mem.get? (sUnknown.pc + 1) = some 0xFF ∧
    unknownLowByte 0xFF 0xFF ∧
    emulate_chip8 0 sUnknown
      = some ({ sUnknown with pc := sUnknown.pc + 2 }, [(0xFF, 0xFF)]) :=
  ⟨rfl, rfl, by decide,
    unknown_opcode_recovery 0 sUnknown 0xFF 0xFF rfl rfl (by decide)⟩

/-- C2 (amended): for operand registers other than the flag register
(x, y different from 0xF), `SUB Vx, Vy` with 8-bit values a = Vx, b = Vy
sets the flag register to 1 iff a > b (no borrow), stores
(a - b) mod 256 = (a + 256 - b) % 256 into Vx by wrapping subtraction, and
completes without aborting (release-profile semantics, where the `-=` on
line 310 wraps).  When x or y equals 0xF the flag write aliases an operand
and the claim fails, see `sub_flag_alias_cex`. -/
theorem sub_vx_vy_spec (r : Nat) (s : CpuState) (b0 b1 x y a b : Nat)
    (h0 : s.mem.get? s.pc = some b0) (h1 : s.mem.get? (s.pc + 1) = some b1)
    (hfam : (b0 &&& 0xf0) >>> 4 = 0x8) (hnib : b1 &&& 0x0f = 0x5)
    (hx : b0 &&& 0x0f = x) (hy : (b1 &&& 0xf0) >>> 4 = y)
    (hVlen : s.V.length = 17)
    (hxF : x ≠ 0xF) (hyF : y ≠ 0xF)
    (ha : s.V.get? x = some a) (hb : s.V.get? y = some b)
    (ha8 : a < 256) (hb8 : b < 256) :
    emulate_chip8 r s =
      some ({ s with
              V := (s.V.set 0xF (if b < a then 1 else 0)).set x ((a + 256 - b) % 256),
              pc := s.pc + 2 }, []) ∧
    ((s.V.set 0xF (if b < a then 1 else 0)).set x ((a + 256 - b) % 256)).get? 0xF
      = some (if a > b then 1 else 0) ∧
    ((s.V.set 0xF (if b < a then 1 else 0)).set x ((a + 256 - b) % 256)).get? x
      = some ((a + 256 - b) % 256) := by
  have hx15 : x ≤ 15 := by
    have := Nat.and_le_right (n := b0) (m := 0x0f)
    omega
  have h15 : (0xF : Nat) < s.V.length := by omega
  have hflag : idxSet s.V 0xF (if b < a then 1 else 0)
      = some (s.V.set 0xF (if b < a then 1 else 0)) := idxSet_of_lt _ h15
  have hax : (s.V.set 0xF (if b < a then 1 else 0)).get? x = some a := by
    rw [setGet_other (Ne.symm hxF)]; exact ha
  have hby : (s.V.set 0xF (if b < a then 1 else 0)).get? y = some b := by
    rw [setGet_other (Ne.symm hyF)]; exact hb
  have hx17 : x < (s.V.set 0xF (if b < a then 1 else 0)).length := by
    simp [hVlen]; omega
  have hset2 : idxSet (s.V.set 0xF (if b < a then 1 else 0)) x ((a + 256 - b) % 256)
      = some ((s.V.set 0xF (if b < a then 1 else 0)).set x ((a + 256 - b) % 256)) :=
    idxSet_of_lt _ hx17
  have h0g : s.mem[s.pc]? = some b0 := by simpa using h0
  have h1g : s.mem[s.pc + 1]? = some b1 := by simpa using h1
  have hag : s.V[x]? = some a := by simpa using ha
  have hbg : s.V[y]? = some b := by simpa using hb
  have haxg : (s.V.set 0xF (if b < a then 1 else 0))[x]? = some a := by simpa using hax
  have hbyg : (s.V.set 0xF (if b < a then 1 else 0))[y]? = some b := by simpa using hby
  refine ⟨?_, ?_, ?_⟩
  · simp [emulate_chip8, h0g, h1g, hfam, exec8, hnib, hx, hy, hag, hbg, hflag, haxg, hbyg,
      hset2, sub8]
  · rw [setGet_other hxF, setGet_same h15]
  · exact setGet_same hx17

/-- Witness for `sub_vx_vy_spec`: the claim example V0 = 0x01, V1 = 0x02 in
state `sSub` — the flag ends 0 and V0 ends 0xFF = 255. -/
theorem sub_vx_vy_spec_witness :
    sSub.V.get? 0 = some 1 ∧ sSub.V.get? 1 = some 2 ∧
    (emulate_chip8 0 sSub =
      some ({ sSub with V := (sSub.V.set 0xF 0).set 0 255, pc := sSub.pc + 2 }, []) ∧
     ((sSub.V.set 0xF 0).set 0 255).get? 0xF = some 0 ∧
     ((sSub.V.set 0xF 0).set 0 255).get? 0 = some 255) :=
  ⟨rfl, rfl,
    sub_vx_vy_spec 0 sSub 0x80 0x15 0 1 1 2 rfl rfl rfl rfl rfl rfl rfl
      (by decide) (by decide) rfl rfl (by decide) (by decide)⟩

/-- Evaluation of the wrapping usize subtraction when no underflow occurs. -/
theorem sub64_eval {a b : Nat} (h1 : b ≤ a) (h2 : a < 18446744073709551616) :
    sub64 a b = a - b := by
  unfold sub64
  omega

/-- Splitting a 16-bit value into the two bytes the `CALL` push stores and
recombining them the way `RET` does yields the value back. -/
theorem bytes_recombine (m : Nat) (hm : m < 65536) :
    ((((m &&& 0xff00) >>> 8) <<< 8) ||| (m &&& 0x00ff)) = m := by
  apply Nat.eq_of_testBit_eq
  intro i
  have e1 : (0xff00 : Nat) = (2 ^ 8 - 1) <<< 8 := by decide
  have e2 : (0x00ff : Nat) = 2 ^ 8 - 1 := by decide
  rw [e1, e2]
  simp only [Nat.testBit_or, Nat.testBit_shiftLeft, Nat.testBit_shiftRight,
    Nat.testBit_and, Nat.testBit_two_pow_sub_one, ge_iff_le]
  by_cases h8 : 8 ≤ i
  · have he : 8 + (i - 8) = i := by omega
    rw [he]
    by_cases h16 : i < 16
    · have : i - 8 < 8 := by omega
      simp [h8, this]
    · have hz : m.testBit i = false := by
        apply Nat.testBit_lt_two_pow
        calc m < 65536 := hm
          _ = 2 ^ 16 := by norm_num
          _ ≤ 2 ^ i := Nat.pow_le_pow_right (by omega) (by omega)
      simp [hz]
  · have : i < 8 := by omega
    simp [h8, this]

/-- C7: `CALL addr` immediately followed by the `RET` at `addr` restores the
program counter to exactly the instruction after the `CALL` (original pc + 2)
and restores the stack pointer to its pre-`CALL` value.  Hypotheses: the
`CALL` opcode is fetched at `pc`, there is room for the 2-byte push
(`2 <= sp`, both pushed slots inside memory — up to the stack capacity), the
return address fits in the two stored bytes (`pc + 2 < 65536`), the pushed
slots do not overwrite the `CALL` or the `RET` opcode bytes, and a `RET`
(00EE) sits at the call target. -/
theorem call_ret_roundtrip (r1 r2 : Nat) (s : CpuState) (b0 b1 addr : Nat)
    (h0 : s.mem.get? s.pc = some b0) (h1 : s.mem.get? (s.pc + 1) = some b1)
    (hfam : (b0 &&& 0xf0) >>> 4 = 0x2)
    (haddr : addr = ((b0 &&& 0x0f) <<< 8) ||| b1)
    (hsp : 2 ≤ s.sp) (hsp64 : s.sp < 18446744073709551616)
    (hspmem : s.sp - 1 < s.mem.length)
    (hpc : s.pc + 2 < 65536)
    (hal1 : s.sp - 2 ≠ s.pc) (hal2 : s.sp - 2 ≠ s.pc + 1)
    (hal3 : s.sp - 1 ≠ s.pc) (hal4 : s.sp - 1 ≠ s.pc + 1)
    (hal5 : s.sp - 2 ≠ addr) (hal6 : s.sp - 2 ≠ addr + 1)
    (hal7 : s.sp - 1 ≠ addr) (hal8 : s.sp - 1 ≠ addr + 1)
    (hret0 : s.mem.get? addr = some 0x00) (hret1 : s.mem.get? (addr + 1) = some 0xEE) :
    ∃ s1 s2,
      emulate_chip8 r1 s = some (s1, []) ∧
      s1.pc = addr ∧ s1.sp = s.sp - 2 ∧
      emulate_chip8 r2 s1 = some (s2, []) ∧
      s2.pc = s.pc + 2 ∧ s2.sp = s.sp := by
  have hsub : sub64 s.sp 2 = s.sp - 2 := sub64_eval hsp hsp64
  set hi := ((s.pc + 2) &&& 0xff00) >>> 8 with hhi
  set lo := (s.pc + 2) &&& 0x00ff with hlo
  have hlt1 : s.sp - 2 < s.mem.length := by omega
  have hw1 : idxSet s.mem (s.sp - 2) hi = some (s.mem.set (s.sp - 2) hi) :=
    idxSet_of_lt _ hlt1
  have hlen1 : (s.mem.set (s.sp - 2) hi).length = s.mem.length := by simp
  have hlt2 : s.sp - 2 + 1 < (s.mem.set (s.sp - 2) hi).length := by omega
  set m2 := (s.mem.set (s.sp - 2) hi).set (s.sp - 2 + 1) lo with hm2
  have hw2 : idxSet (s.mem.set (s.sp - 2) hi) (s.sp - 2 + 1) lo = some m2 :=
    idxSet_of_lt _ hlt2
  have hr0 : m2.get? s.pc = some b0 := by
    rw [hm2, setGet_other (by omega), setGet_other (by omega)]; exact h0
  have hr1 : m2.get? (s.pc + 1) = some b1 := by
    rw [hm2, setGet_other (by omega), setGet_other (by omega)]; exact h1
  have hstep1 : emulate_chip8 r1 s =
      some ({ s with sp := s.sp - 2, mem := m2, pc := addr }, []) := by
    simp only [emulate_chip8, h0, h1]
    rw [hfam]
    norm_num
    simp only [exec2, hsub, hw1, hw2, hr0, hr1, haddr]
  refine ⟨{ s with sp := s.sp - 2, mem := m2, pc := addr }, ?_⟩
  have hg0 : m2.get? addr = some 0x00 := by
    rw [hm2, setGet_other (by omega), setGet_other (by omega)]; exact hret0
  have hg1 : m2.get? (addr + 1) = some 0xEE := by
    rw [hm2, setGet_other (by omega), setGet_other (by omega)]; exact hret1
  have hpop0 : m2[s.sp - 2]? = some hi := by
    have h : m2.get? (s.sp - 2) = some hi := by
      rw [hm2, setGet_other (by omega)]
      exact setGet_same hlt1
    simpa using h
  have hpop1 : m2[s.sp - 2 + 1]? = some lo := by
    have h : m2.get? (s.sp - 2 + 1) = some lo := by
      rw [hm2]
      exact setGet_same hlt2
    simpa using h
  have hstep2 : emulate_chip8 r2 { s with sp := s.sp - 2, mem := m2, pc := addr } =
      some ({ s with sp := s.sp - 2 + 2, mem := m2, pc := (hi <<< 8) ||| lo }, []) := by
    simp only [emulate_chip8, hg0, hg1]
    norm_num
    simp only [exec0]
    norm_num
    simp only [hpop0, hpop1]
  refine ⟨{ s with sp := s.sp - 2 + 2, mem := m2, pc := (hi <<< 8) ||| lo }, hstep1, rfl, rfl, hstep2, ?_, ?_⟩
  · show (hi <<< 8) ||| lo = s.pc + 2
    rw [hhi, hlo]
    exact bytes_recombine (s.pc + 2) hpc
  · show s.sp - 2 + 2 = s.sp
    omega

/-- Witness for `call_ret_roundtrip`: the state `sCall` (`CALL 0x004` at
pc = 0 with sp = 16, `RET` at address 4). -/
theorem call_ret_roundtrip_witness :
    sCall.mem.get? sCall.pc = some 0x20 ∧
    sCall.mem.get? (sCall.pc + 1) = some 0x04 ∧
    sCall.mem.get? 4 = some 0x00 ∧ sCall.mem.get? (4 + 1) = some 0xEE ∧
    (∃ s1 s2,
      emulate_chip8 0 sCall = some (s1, []) ∧
      s1.pc = 4 ∧ s1.sp = sCall.sp - 2 ∧
      emulate_chip8 0 s1 = some (s2, []) ∧
      s2.pc = sCall.pc + 2 ∧ s2.sp = sCall.sp) :=
  ⟨rfl, rfl, rfl, rfl,
    call_ret_roundtrip 0 0 sCall 0x20 0x04 4 rfl rfl (by decide) (by decide)
      (by decide) (by decide) (by decide) (by decide) (by decide) (by decide)
      (by decide) (by decide) (by decide) (by decide) (by decide) (by decide)
      rfl rfl⟩

/-- A monadic fold over `Option` that never fails and preserves the length
of its list state equals the corresponding pure fold. -/
theorem foldlM_eq_foldl {α : Type} (f : List Nat → α → Option (List Nat))
    (g : List Nat → α → List Nat) (L : Nat) (xs : List α)
    (hstep : ∀ sc a, a ∈ xs → sc.length = L →
      f sc a = some (g sc a) ∧ (g sc a).length = L) :
    ∀ sc, sc.length = L →
      xs.foldlM f sc = some (xs.foldl g sc) ∧ (xs.foldl g sc).length = L := by
  induction xs with
  | nil =>
    intro sc hsc
    exact ⟨rfl, hsc⟩
  | cons x xs ih =>
    intro sc hsc
    have h1 := hstep sc x (by simp) hsc
    have ih2 := ih (fun sc a ha hl => hstep sc a (by simp [ha]) hl) (g sc x) h1.2
    rw [List.foldlM_cons, h1.1, List.foldl_cons]
    simpa using ih2


/-- On a full-sized framebuffer one sprite row of `DRW` never fails — every
bounds-checked pixel access is inside the grid — and equals the pure fold
that toggles the wrapped pixels. -/
theorem drwRow_eq (screen : List Nat) (rowByte x y i : Nat)
    (hscr : screen.length = W * H) :
    drwRow screen rowByte x y i
      = some ((List.range 8).foldl
          (fun sc2 jr =>
            if rowByte &&& (1 <<< jr) ≠ 0 then
              togglePixel sc2 (((i + y) % H) * W + (x + 7 - jr) % W)
            else sc2) screen) ∧
    ((List.range 8).foldl
          (fun sc2 jr =>
            if rowByte &&& (1 <<< jr) ≠ 0 then
              togglePixel sc2 (((i + y) % H) * W + (x + 7 - jr) % W)
            else sc2) screen).length = W * H := by
  unfold drwRow
  refine foldlM_eq_foldl _ _ (W * H) _ ?_ screen hscr
  intro sc jr _ hsc
  by_cases hbit : rowByte &&& (1 <<< jr) ≠ 0
  · have hidx : ((i + y) % H) * W + (x + 7 - jr) % W < W * H := by
      have hW : W = 64 := rfl
      have hH : H = 32 := rfl
      have h1 : (i + y) % H < H := Nat.mod_lt _ (by decide)
      have h2 : (x + 7 - jr) % W < W := Nat.mod_lt _ (by decide)
      rw [hW, hH] at *
      omega
    have hlt : ((i + y) % H) * W + (x + 7 - jr) % W < sc.length := by omega
    have hg : sc.get? (((i + y) % H) * W + (x + 7 - jr) % W)
        = some sc[((i + y) % H) * W + (x + 7 - jr) % W] := get?_of_lt hlt
    simp only [if_pos hbit, hg, togglePixel]
    constructor
    · rw [idxSet_of_lt _ hlt]
      rfl
    · simp [hsc]
  · simp only [if_neg hbit]
    exact ⟨rfl, hsc⟩


/-- On a full-sized framebuffer, when the sprite bytes are inside memory,
the whole `DRW` loop never fails and computes `drwBlit`. -/
theorem drwRows_eq (mem screen : List Nat) (Ival x y n : Nat)
    (hscr : screen.length = W * H)
    (hmem : ∀ i, i < n → i + Ival < mem.length) :
    drwRows mem screen Ival x y n = some (drwBlit mem Ival x y n screen) ∧
    (drwBlit mem Ival x y n screen).length = W * H := by
  unfold drwRows drwBlit
  refine foldlM_eq_foldl _ _ (W * H) _ ?_ screen hscr
  intro sc i hi hsc
  have hin : i + Ival < mem.length := hmem i (by simpa using hi)
  have hgi : mem.get? (i + Ival) = some mem[i + Ival] := get?_of_lt hin
  rw [hgi]
  have hr := drwRow_eq sc mem[i + Ival] x y i hsc
  simpa [hgi] using hr

/-- C4: `DRW Vx, Vy, n` never touches a framebuffer index outside the
64 x 32 grid and never aborts on a framebuffer access: with a full-sized
framebuffer (`screen_buffer.length = W * H`, the Rust allocation
`vec![0; W * H]`) and the n sprite bytes inside memory (reads of `mem` that
fall outside the address space are the separate fatal address-fault
category), the step always succeeds — even for Vx = 0 — and the new
framebuffer is exactly `drwBlit`, which by definition only toggles pixels at
row `(i + y) % H` and column `(x + 7 - jr) % W`, i.e. toroidally wrapped
in-grid coordinates, and the framebuffer keeps its `W * H` size. -/
theorem drw_wraps_in_grid (r : Nat) (s : CpuState) (b0 b1 vx vy : Nat)
    (h0 : s.mem.get? s.pc = some b0) (h1 : s.mem.get? (s.pc + 1) = some b1)
    (hfam : (b0 &&& 0xf0) >>> 4 = 0xD)
    (hvx : s.V.get? (b0 &&& 0x0f) = some vx)
    (hvy : s.V.get? ((b1 &&& 0xf0) >>> 4) = some vy)
    (hscr : s.screen_buffer.length = W * H)
    (hmem : ∀ i, i < b1 &&& 0x0f → i + s.I < s.mem.length) :
    emulate_chip8 r s =
      some ({ s with
              screen_buffer := drwBlit s.mem s.I vx vy (b1 &&& 0x0f) s.screen_buffer,
              pc := s.pc + 2 }, []) ∧
    (drwBlit s.mem s.I vx vy (b1 &&& 0x0f) s.screen_buffer).length = W * H := by
  obtain ⟨heq, hlen⟩ :=
    drwRows_eq s.mem s.screen_buffer s.I vx vy (b1 &&& 0x0f) hscr hmem
  refine ⟨?_, hlen⟩
  simp only [emulate_chip8, h0, h1]
  rw [hfam]
  norm_num
  simp only [execD, hvx, hvy, heq]

/-- Witness for `drw_wraps_in_grid`: the wrap example of the spec — an 8 x 5
all-ones sprite drawn at x = 60, y = 30 in state `sDrw`. -/
theorem drw_wraps_in_grid_witness :
    sDrw.V.get? 0 = some 60 ∧ sDrw.V.get? 1 = some 30 ∧
    sDrw.screen_buffer.length = W * H ∧
    (∀ i, i < 0x15 &&& 0x0f → i + sDrw.I < sDrw.mem.length) ∧
    (emulate_chip8 0 sDrw =
      some ({ sDrw with
              screen_buffer :=
                drwBlit sDrw.mem sDrw.I 60 30 (0x15 &&& 0x0f) sDrw.screen_buffer,
              pc := sDrw.pc + 2 }, []) ∧
     (drwBlit sDrw.mem sDrw.I 60 30 (0x15 &&& 0x0f) sDrw.screen_buffer).length
       = W * H) :=
  ⟨rfl, rfl, by simp [sDrw, blankScreen], by decide,
    drw_wraps_in_grid 0 sDrw 0xD0 0x15 60 30 rfl rfl (by decide) rfl rfl
      (by simp [sDrw, blankScreen]) (by decide)⟩

/-- C8 (amended): `LD [I], V3` stores V0..V3 at I..I+3 and advances I by
exactly 4, and the immediately following `LD V3, [I]` advances I by exactly
4 again — but it reads from the already-advanced index, so the straight
round trip does not reproduce the registers (see
`store_load_roundtrip_cex`).  If the index register is restored to its
pre-store value before the load, the pair does reproduce V0..V3 and leaves
the registers above V3 untouched.  Hypotheses: the two opcodes are fetched
in sequence, the four stored cells are inside memory, I + 4 fits in a u16,
and the stores do not overwrite the second opcode. -/
theorem store_load_amended (r1 r2 : Nat) (s : CpuState) (v0 v1 v2 v3 : Nat)
    (h0 : s.mem.get? s.pc = some 0xF3) (h1 : s.mem.get? (s.pc + 1) = some 0x55)
    (hVlen : s.V.length = 17)
    (hv0 : s.V.get? 0 = some v0) (hv1 : s.V.get? 1 = some v1)
    (hv2 : s.V.get? 2 = some v2) (hv3 : s.V.get? 3 = some v3)
    (hImem : s.I + 3 < s.mem.length)
    (hI16 : s.I + 4 < 65536)
    (hf2 : s.mem.get? (s.pc + 2) = some 0xF3)
    (hf3 : s.mem.get? (s.pc + 3) = some 0x65)
    (hnal : ∀ k, k < 4 → s.I + k ≠ s.pc + 2 ∧ s.I + k ≠ s.pc + 3) :
    ∃ s1, emulate_chip8 r1 s = some (s1, []) ∧
      s1.I = s.I + 4 ∧ s1.pc = s.pc + 2 ∧ s1.V = s.V ∧
      s1.mem.get? s.I = some v0 ∧ s1.mem.get? (s.I + 1) = some v1 ∧
      s1.mem.get? (s.I + 2) = some v2 ∧ s1.mem.get? (s.I + 3) = some v3 ∧
      ∃ s2, emulate_chip8 r2 { s1 with I := s.I } = some (s2, []) ∧
        s2.I = s.I + 4 ∧
        s2.V.get? 0 = some v0 ∧ s2.V.get? 1 = some v1 ∧
        s2.V.get? 2 = some v2 ∧ s2.V.get? 3 = some v3 ∧
        ∀ j, 3 < j → s2.V.get? j = s.V.get? j := by
  have hw16 : wrap16 (s.I + 4) = s.I + 4 := by unfold wrap16; omega
  set m1 := s.mem.set s.I v0 with hm1
  set m2 := m1.set (s.I + 1) v1 with hm2
  set m3 := m2.set (s.I + 2) v2 with hm3
  set m4 := m3.set (s.I + 3) v3 with hm4
  have hl1 : m1.length = s.mem.length := by simp [hm1]
  have hl2 : m2.length = s.mem.length := by simp [hm2, hl1]
  have hl3 : m3.length = s.mem.length := by simp [hm3, hl2]
  have hl4 : m4.length = s.mem.length := by simp [hm4, hl3]
  have hv0g : s.V[0]? = some v0 := by simpa using hv0
  have hv1g : s.V[1]? = some v1 := by simpa using hv1
  have hv2g : s.V[2]? = some v2 := by simpa using hv2
  have hv3g : s.V[3]? = some v3 := by simpa using hv3
  have w0 : idxSet s.mem s.I v0 = some m1 := idxSet_of_lt _ (by omega)
  have w1 : idxSet m1 (s.I + 1) v1 = some m2 := idxSet_of_lt _ (by omega)
  have w2 : idxSet m2 (s.I + 2) v2 = some m3 := idxSet_of_lt _ (by omega)
  have w3 : idxSet m3 (s.I + 3) v3 = some m4 := idxSet_of_lt _ (by omega)
  have hstore : storeRegs s.V s.mem s.I 3 = some m4 := by
    unfold storeRegs
    rw [show List.range (3 + 1) = [0, 1, 2, 3] from rfl]
    simp [List.foldlM, hv0g, hv1g, hv2g, hv3g, w0, w1, w2, w3]
  have hstep1 : emulate_chip8 r1 s =
      some ({ s with mem := m4, I := s.I + 4, pc := s.pc + 2 }, []) := by
    simp only [emulate_chip8, h0, h1]
    rw [show ((0xF3 : Nat) &&& 0xf0) >>> 4 = 15 from by decide]
    norm_num
    simp only [execF]
    rw [show ((0xF3 : Nat) &&& 0x0f) = 3 from by decide]
    norm_num
    simp only [hstore]
    norm_num [hw16]
  -- the stored bytes can be read back
  have g3 : m4.get? (s.I + 3) = some v3 := by rw [hm4]; exact setGet_same (by omega)
  have g2 : m4.get? (s.I + 2) = some v2 := by
    rw [hm4, setGet_other (by omega), hm3]; exact setGet_same (by omega)
  have g1 : m4.get? (s.I + 1) = some v1 := by
    rw [hm4, setGet_other (by omega), hm3, setGet_other (by omega), hm2]
    exact setGet_same (by omega)
  have g0 : m4.get? s.I = some v0 := by
    rw [hm4, setGet_other (by omega), hm3, setGet_other (by omega), hm2,
      setGet_other (by omega), hm1]
    exact setGet_same (by omega)
  -- the second fetch is not clobbered by the four stores
  have q2 : m4.get? (s.pc + 2) = some 0xF3 := by
    rw [hm4, setGet_other (hnal 3 (by omega)).1, hm3,
      setGet_other (hnal 2 (by omega)).1, hm2, setGet_other (hnal 1 (by omega)).1,
      hm1, setGet_other (by simpa using (hnal 0 (by omega)).1)]
    exact hf2
  have q3 : m4.get? (s.pc + 2 + 1) = some 0x65 := by
    have e : s.pc + 2 + 1 = s.pc + 3 := by omega
    rw [e, hm4, setGet_other (hnal 3 (by omega)).2, hm3,
      setGet_other (hnal 2 (by omega)).2, hm2, setGet_other (hnal 1 (by omega)).2,
      hm1, setGet_other (by simpa using (hnal 0 (by omega)).2)]
    exact hf3
  -- the load fold
  set V1 := s.V.set 0 v0 with hV1
  set V2 := V1.set 1 v1 with hV2
  set V3 := V2.set 2 v2 with hV3
  set V4 := V3.set 3 v3 with hV4
  have kl1 : V1.length = 17 := by simp [hV1, hVlen]
  have kl2 : V2.length = 17 := by simp [hV2, kl1]
  have kl3 : V3.length = 17 := by simp [hV3, kl2]
  have u0 : idxSet s.V 0 v0 = some V1 := idxSet_of_lt _ (by omega)
  have u1 : idxSet V1 1 v1 = some V2 := idxSet_of_lt _ (by omega)
  have u2 : idxSet V2 2 v2 = some V3 := idxSet_of_lt _ (by omega)
  have u3 : idxSet V3 3 v3 = some V4 := idxSet_of_lt _ (by omega)
  have g0g : m4[s.I]? = some v0 := by simpa using g0
  have g1g : m4[s.I + 1]? = some v1 := by simpa using g1
  have g2g : m4[s.I + 2]? = some v2 := by simpa using g2
  have g3g : m4[s.I + 3]? = some v3 := by simpa using g3
  have hload : loadRegs s.V m4 s.I 3 = some V4 := by
    unfold loadRegs
    rw [show List.range (3 + 1) = [0, 1, 2, 3] from rfl]
    simp [List.foldlM, g0g, g1g, g2g, g3g, u0, u1, u2, u3]
  have hstep2 : emulate_chip8 r2
      { s with mem := m4, I := s.I, pc := s.pc + 2 } =
      some ({ s with mem := m4, V := V4, I := s.I + 4, pc := s.pc + 2 + 2 }, []) := by
    simp only [emulate_chip8, q2, q3]
    rw [show ((0xF3 : Nat) &&& 0xf0) >>> 4 = 15 from by decide]
    norm_num
    simp only [execF]
    rw [show ((0xF3 : Nat) &&& 0x0f) = 3 from by decide]
    norm_num
    simp only [hload]
    norm_num [hw16]
  refine ⟨{ s with mem := m4, I := s.I + 4, pc := s.pc + 2 }, hstep1, rfl, rfl, rfl,
    g0, g1, g2, g3,
    ⟨{ s with mem := m4, V := V4, I := s.I + 4, pc := s.pc + 2 + 2 }, hstep2, rfl,
      ?_, ?_, ?_, ?_, ?_⟩⟩
  · show V4.get? 0 = some v0
    rw [hV4, setGet_other (by omega), hV3, setGet_other (by omega), hV2,
      setGet_other (by omega), hV1]
    exact setGet_same (by omega)
  · show V4.get? 1 = some v1
    rw [hV4, setGet_other (by omega), hV3, setGet_other (by omega), hV2]
    exact setGet_same (by omega)
  · show V4.get? 2 = some v2
    rw [hV4, setGet_other (by omega), hV3]
    exact setGet_same (by omega)
  · show V4.get? 3 = some v3
    rw [hV4]
    exact setGet_same (by omega)
  · intro j hj
    show V4.get? j = s.V.get? j
    rw [hV4, setGet_other (by omega), hV3, setGet_other (by omega), hV2,
      setGet_other (by omega), hV1, setGet_other (by omega)]

/-- Witness for `store_load_amended`: the state `sStoreLoad`
(V0..V3 = 1,2,3,4, I = 8). -/
theorem store_load_amended_witness :
    sStoreLoad.V.get? 0 = some 1 ∧ sStoreLoad.V.get? 1 = some 2 ∧
    sStoreLoad.V.get? 2 = some 3 ∧ sStoreLoad.V.get? 3 = some 4 ∧
    (∃ s1, emulate_chip8 0 sStoreLoad = some (s1, []) ∧
      s1.I = sStoreLoad.I + 4 ∧ s1.pc = sStoreLoad.pc + 2 ∧
      s1.V = sStoreLoad.V ∧
      s1.mem.get? sStoreLoad.I = some 1 ∧
      s1.mem.get? (sStoreLoad.I + 1) = some 2 ∧
      s1.mem.get? (sStoreLoad.I + 2) = some 3 ∧
      s1.mem.get? (sStoreLoad.I + 3) = some 4 ∧
      ∃ s2, emulate_chip8 0 { s1 with I := sStoreLoad.I } = some (s2, []) ∧
        s2.I = sStoreLoad.I + 4 ∧
        s2.V.get? 0 = some 1 ∧ s2.V.get? 1 = some 2 ∧
        s2.V.get? 2 = some 3 ∧ s2.V.get? 3 = some 4 ∧
        ∀ j, 3 < j → s2.V.get? j = sStoreLoad.V.get? j) :=
  ⟨rfl, rfl, rfl, rfl,
    store_load_amended 0 0 sStoreLoad 1 2 3 4 rfl rfl rfl rfl rfl rfl rfl
      (by decide) (by decide) rfl rfl (by decide)⟩

/-- C1: the code never updates the collision flag during `DRW` — the flag
update is commented out in the source (src lines 425-428).  Here a draw
turns the on pixel (0,0) off (an on-to-off transition, so the claim demands
flag 1), yet the flag register stays 0; and a draw that only turns an off
pixel on (the claim demands flag 0) leaves a pre-existing 1 in the flag
register untouched. -/
theorem drw_collision_flag_bug :
    ((emulate_chip8 0 sDrawOn).map fun p => ((p.1.screen_buffer).get? (0), p.1.V.get? (0xF)))
        = some (some 0, some 0) ∧
    ((emulate_chip8 0 sDrawOff).map fun p => ((p.1.screen_buffer).get? (0), p.1.V.get? (0xF)))
        = some (some 0xffffff, some 1) :=
  ⟨rfl, rfl⟩

/-- C2 counterexample: when an operand register of `SUB Vx, Vy` is the flag
register 0xF itself, the claim fails.  With `SUB VF, V0`, VF = 5, V0 = 0
(so a = 5, b = 0, a > b) the claim demands Vx = VF = (5 - 0) % 256 = 5, but
the code first overwrites VF with the flag 1 and then subtracts from that,
leaving VF = 1.  With `SUB V0, VF`, V0 = 10, VF = 3 (a = 10, b = 3) the
claim demands V0 = 7, but the code subtracts the freshly written flag,
leaving V0 = 10 - 1 = 9. -/
theorem sub_flag_alias_cex :
    ((emulate_chip8 0 sSubAliasX).map fun p => p.1.V.get? (0xF)) = some (some 1) ∧
    (1 : Nat) ≠ 5 ∧
    ((emulate_chip8 0 sSubAliasY).map fun p => p.1.V.get? (0)) = some (some 9) ∧
    (9 : Nat) ≠ 7 :=
  ⟨rfl, by decide, rfl, by decide⟩

/-- C5: the source executes `self.pc += 2` after setting
`pc := addr + V0` (src line 392), so `JP V0, 0x300` with V0 = 5 leaves the
program counter at 0x307, not at 0x305 as the claim requires. -/
theorem jp_v0_extra_increment_bug :
    ((emulate_chip8 0 sJpV0).map fun p => p.1.pc) = some 0x307 ∧
    (0x307 : Nat) ≠ 0x300 + 5 :=
  ⟨rfl, by decide⟩

/-- C6: `LD DT, Vx` and `LD ST, Vx` set the timer to the register *index*
(the low nibble of the first opcode byte, `self.mem[self.pc] & 0x0f`,
src lines 475 and 481), not to the value stored in Vx.  With x = 5 and
V5 = 99 both timers end at 5, not 99. -/
theorem ld_timer_from_nibble_bug :
    ((emulate_chip8 0 sLdDt).map fun p => p.1.delay) = some 5 ∧
    ((emulate_chip8 0 sLdSt).map fun p => p.1.sound) = some 5 ∧
    (5 : Nat) ≠ 99 :=
  ⟨rfl, rfl, by decide⟩

/-- C8 counterexample: `LD [I], V3` advances I from 8 to 12, so the
immediately following `LD V3, [I]` reads memory cells 12..15 (holding 9s),
not the cells 8..11 where V0..V3 = 1,2,3,4 were just stored.  The round
trip therefore does not reproduce the original register values (each
instruction does advance I by exactly 4: 8 to 12 to 16). -/
theorem store_load_roundtrip_cex :
    ((emulate_chip8 0 sStoreLoad).bind fun p =>
        (emulate_chip8 0 p.1).map fun q => (q.1.V.take 4, q.1.I))
      = some ([9, 9, 9, 9], 16) ∧
    ([9, 9, 9, 9] : List Nat) ≠ [1, 2, 3, 4] :=
  ⟨rfl, by decide⟩

/-- C9: `SKP Vx` indexes the 17-entry keypad array with the raw register
value (src line 441).  With V0 = 0x11 = 17 the access is out of bounds and
the program aborts; with V0 = 0x10 = 16 the instruction reads the
seventeenth slot — a keypad slot outside 0x0..0xF — and acts on it (here
the skip is taken, pc ends at 4, because slot 16 is marked pressed). -/
theorem skp_keypad_range_bug :
    emulate_chip8 0 sSkpHigh = none ∧
    ((emulate_chip8 0 sSkpSlot16).map fun p => p.1.pc) = some 4 :=
  ⟨rfl, rfl⟩

end Chip8
